import Mathlib

/-!
Shallow embedding of the TOOM watchlist application (src/database.py,
src/seed_data.py, src/market_data.py, src/app.py).

The SQLite store is modelled as explicit state: a list of tab rows and a
list of watchlist rows kept in insertion (rowid) order, together with the
AUTOINCREMENT counters and a logical clock standing for CURRENT_TIMESTAMP.
SQL `ORDER BY a, b` is modelled by sorting with the corresponding
lexicographic relation (insertion sort, which is stable, matching SQLite's
behaviour on the rowid-ordered scan).  Python floats are modelled as
rationals; Python `round(x, 2)` as exact round-half-to-even on `x * 100`.
-/

/-- A row of the `tabs` table (id, name, sort_order).  `created_at` is never
read by any operation and is omitted. -/
structure Tab where
  id : Nat
  name : String
  sort_order : Int
deriving DecidableEq

/-- A row of the `watchlist` table. `added_at` is the logical timestamp. -/
structure Entry where
  id : Nat
  tab_id : Nat
  ticker : String
  name : String
  sort_order : Int
  added_at : Nat
deriving DecidableEq

/-- The database state: both tables in rowid order, the AUTOINCREMENT
counters, and a logical clock used for `added_at`. -/
structure Store where
  tabs : List Tab
  watchlist : List Entry
  nextTabId : Nat
  nextEntryId : Nat
  clock : Nat
deriving DecidableEq

/-- The store of a freshly created database (AUTOINCREMENT starts at 1). -/
def emptyStore : Store := ⟨[], [], 1, 1, 0⟩

/-- Python `str.strip()`: drop leading and trailing whitespace.  (Defined on
the character list so that it evaluates inside the kernel.) -/
def pyStrip (s : String) : String :=
  ⟨((s.data.dropWhile Char.isWhitespace).reverse.dropWhile Char.isWhitespace).reverse⟩

/-- Python `str.upper()` (ASCII, which covers every ticker and name the
system handles). -/
def pyUpper (s : String) : String := ⟨s.data.map Char.toUpper⟩

/-- Python `ticker.upper().strip()` (database.py uses this normalization in
`add_ticker`, `reorder_watchlist` and `remove_ticker`). -/
def normTicker (t : String) : String := pyStrip (pyUpper t)

/-- `ORDER BY sort_order, id` on tab rows. -/
def tabLE (a b : Tab) : Prop :=
  a.sort_order < b.sort_order ∨ (a.sort_order = b.sort_order ∧ a.id ≤ b.id)

instance : DecidableRel tabLE := fun a b =>
  decidable_of_iff (a.sort_order < b.sort_order ∨ (a.sort_order = b.sort_order ∧ a.id ≤ b.id))
    Iff.rfl

/-- `ORDER BY sort_order, added_at` on watchlist rows. -/
def entryLE (a b : Entry) : Prop :=
  a.sort_order < b.sort_order ∨ (a.sort_order = b.sort_order ∧ a.added_at ≤ b.added_at)

instance : DecidableRel entryLE := fun a b =>
  decidable_of_iff
    (a.sort_order < b.sort_order ∨ (a.sort_order = b.sort_order ∧ a.added_at ≤ b.added_at))
    Iff.rfl

instance : IsTotal Tab tabLE := ⟨by intro a b; unfold tabLE; omega⟩

instance : IsTrans Tab tabLE := ⟨by intro a b c; unfold tabLE; omega⟩

instance : IsTotal Entry entryLE := ⟨by intro a b; unfold entryLE; omega⟩

instance : IsTrans Entry entryLE := ⟨by intro a b c; unfold entryLE; omega⟩

/-- `get_tabs`: `SELECT id, name, sort_order FROM tabs ORDER BY sort_order, id`. -/
def get_tabs (s : Store) : List Tab :=
  List.insertionSort tabLE s.tabs

/-- `SELECT COALESCE(MAX(sort_order), 0) FROM tabs` (used by `create_tab`). -/
def maxTabOrder (s : Store) : Int :=
  match s.tabs.map Tab.sort_order with
  | [] => 0
  | x :: xs => xs.foldl max x

/-- `create_tab(name)`: inserts `(name.strip(), max_order + 1)` and returns
the created row. -/
def create_tab (s : Store) (name : String) : Store × Tab :=
  let t : Tab := ⟨s.nextTabId, pyStrip name, maxTabOrder s + 1⟩
  ({ s with tabs := s.tabs ++ [t], nextTabId := s.nextTabId + 1 }, t)

/-- `rename_tab(tab_id, new_name)`: `UPDATE tabs SET name = new_name.strip()
WHERE id = tab_id`; returns `rowcount > 0`. -/
def rename_tab (s : Store) (tabId : Nat) (newName : String) : Store × Bool :=
  ({ s with
      tabs := s.tabs.map fun t =>
        if t.id == tabId then { t with name := pyStrip newName } else t },
   s.tabs.any fun t => t.id == tabId)

/-- `delete_tab(tab_id)`: refuses when `COUNT(*) <= 1`; otherwise deletes the
row and (via `ON DELETE CASCADE` with `PRAGMA foreign_keys = ON`) every
watchlist row with that `tab_id`; returns `rowcount > 0`. -/
def delete_tab (s : Store) (tabId : Nat) : Store × Bool :=
  if s.tabs.length ≤ 1 then (s, false)
  else
    ({ s with
        tabs := s.tabs.filter fun t => !(t.id == tabId),
        watchlist := s.watchlist.filter fun e => !(e.tab_id == tabId) },
     s.tabs.any fun t => t.id == tabId)

/-- `get_watchlist(tab_id)`: `SELECT ... WHERE tab_id = ? ORDER BY
sort_order, added_at` (the SELECT projects columns; we return whole rows). -/
def get_watchlist (s : Store) (tabId : Nat) : List Entry :=
  List.insertionSort entryLE (s.watchlist.filter fun e => e.tab_id == tabId)

/-- `SELECT COALESCE(MAX(sort_order), -1) FROM watchlist WHERE tab_id = ?`
(used by `add_ticker`). -/
def tabMaxEntryOrder (s : Store) (tabId : Nat) : Int :=
  match (s.watchlist.filter fun e => e.tab_id == tabId).map Entry.sort_order with
  | [] => -1
  | x :: xs => xs.foldl max x

/-- `add_ticker(tab_id, ticker, name)`: INSERT of the normalized ticker with
`sort_order = max + 1`; an `IntegrityError` — raised either by the
`UNIQUE(tab_id, ticker)` constraint or by the foreign key on `tab_id`
(enforcement is on) — is caught and reported as `False` with no mutation. -/
def add_ticker (s : Store) (tabId : Nat) (ticker name : String) : Store × Bool :=
  if (s.tabs.any fun t => t.id == tabId) &&
      !(s.watchlist.any fun e => e.tab_id == tabId && e.ticker == normTicker ticker) then
    ({ s with
        watchlist :=
          s.watchlist ++
            [⟨s.nextEntryId, tabId, normTicker ticker, name, tabMaxEntryOrder s tabId + 1, s.clock⟩],
        nextEntryId := s.nextEntryId + 1,
        clock := s.clock + 1 }, true)
  else (s, false)

/-- One iteration of the `reorder_watchlist` loop: `UPDATE watchlist SET
sort_order = ord WHERE tab_id = ? AND ticker = ?`. -/
def updateTicker (tabId : Nat) (tick : String) (ord : Int) (es : List Entry) : List Entry :=
  es.map fun e =>
    if e.tab_id == tabId && e.ticker == tick then { e with sort_order := ord } else e

/-- The `for i, ticker in enumerate(tickers)` loop of `reorder_watchlist`,
with `k` the running index. -/
def applyReorder (tabId : Nat) : Nat → List String → List Entry → List Entry
  | _, [], es => es
  | k, t :: ts, es => applyReorder tabId (k + 1) ts (updateTicker tabId (normTicker t) (k : Int) es)

/-- `reorder_watchlist(tab_id, tickers)`: runs the update loop and always
returns `True`. -/
def reorder_watchlist (s : Store) (tabId : Nat) (tickers : List String) : Store × Bool :=
  ({ s with watchlist := applyReorder tabId 0 tickers s.watchlist }, true)

/-- The effect of the whole `reorder_watchlist` loop on one row (the loop
updates rows independently, so it is the row-wise view of `applyReorder`). -/
def reorderEntry (tabId : Nat) : Nat → List String → Entry → Entry
  | _, [], e => e
  | k, t :: ts, e =>
      reorderEntry tabId (k + 1) ts
        (if e.tab_id == tabId && e.ticker == normTicker t then
          { e with sort_order := (k : Int) } else e)

/-- `remove_ticker(tab_id, ticker)`: DELETE of the normalized ticker;
returns `rowcount > 0`. -/
def remove_ticker (s : Store) (tabId : Nat) (ticker : String) : Store × Bool :=
  let tick := normTicker ticker
  ({ s with
      watchlist := s.watchlist.filter fun e => !(e.tab_id == tabId && e.ticker == tick) },
   s.watchlist.any fun e => e.tab_id == tabId && e.ticker == tick)

/-! ### Seed data (src/seed_data.py) and startup seeding (init_db) -/

/-- `DEFAULT_TABS` from seed_data.py, as (name, sort_order) pairs. -/
def DEFAULT_TABS : List (String × Int) :=
  [("Main", 0), ("MAG7", 1), ("AA", 2), ("US Sectors", 3)]

/-- `DEFAULT_WATCHLIST` from seed_data.py (tab name ↦ (ticker, name) list,
in the source's iteration order). -/
def DEFAULT_WATCHLIST : List (String × List (String × String)) :=
  [("Main",
    [("AEM", "Agnico Eagle Mines"),
     ("TLT", "20+ Year Treasury ETF"),
     ("VTI", "Total Stock Market ETF"),
     ("FSAGX", "Fidelity Gold Fund")]),
   ("MAG7",
    [("AAPL", "Apple Inc."),
     ("AMZN", "Amazon.com Inc."),
     ("GOOG", "Alphabet Inc."),
     ("META", "Meta Platforms Inc."),
     ("TSLA", "Tesla Inc."),
     ("MSFT", "Microsoft Corporation"),
     ("NVDA", "NVIDIA Corporation"),
     ("MAGS", "Roundhill Magnificent Seven ETF")]),
   ("AA",
    [("ACWI", "iShares MSCI ACWI ETF"),
     ("EFA", "iShares MSCI EAFE ETF"),
     ("EEM", "iShares MSCI Emerging Markets ETF"),
     ("BCOM.XA", "Bloomberg Commodity Index"),
     ("GLD", "SPDR Gold Shares"),
     ("SLV", "iShares Silver Trust"),
     ("SPY", "SPDR S&P 500 ETF"),
     ("IWM", "iShares Russell 2000 ETF")]),
   ("US Sectors",
    [("XLK", "Technology"),
     ("XLF", "Financials"),
     ("XLV", "Health Care"),
     ("XLY", "Consumer Discretionary"),
     ("XLC", "Communication Services"),
     ("XLI", "Industrials"),
     ("XLP", "Consumer Staples"),
     ("XLE", "Energy"),
     ("XLU", "Utilities"),
     ("XLRE", "Real Estate"),
     ("XLB", "Materials")])]

/-- `INSERT INTO tabs (name, sort_order) VALUES (?, ?)`. -/
def insertTabRow (s : Store) (name : String) (ord : Int) : Store :=
  { s with tabs := s.tabs ++ [⟨s.nextTabId, name, ord⟩], nextTabId := s.nextTabId + 1 }

/-- The `for tab_def in DEFAULT_TABS` insertion loop of `init_db`. -/
def seedTabs : List (String × Int) → Store → Store
  | [], s => s
  | (n, o) :: rest, s => seedTabs rest (insertTabRow s n o)

/-- `tab_map = {row["name"]: row["id"] for row in tabs}` then `.get(name)`:
a later row with the same name overwrites an earlier one, hence the search
from the end. -/
def tabMapGet (tabs : List Tab) (name : String) : Option Nat :=
  (tabs.reverse.find? fun t => t.name == name).map Tab.id

/-- `INSERT OR IGNORE INTO watchlist ...` as used while seeding: the
`(tab_id, ticker)` uniqueness conflict is ignored (seeding only references
tab ids it just created, so the foreign key cannot fire here). -/
def insertOrIgnoreEntry (s : Store) (tabId : Nat) (tick nm : String) (ord : Int) : Store :=
  if s.watchlist.any fun e => e.tab_id == tabId && e.ticker == tick then s
  else
    { s with
        watchlist := s.watchlist ++ [⟨s.nextEntryId, tabId, tick, nm, ord, s.clock⟩],
        nextEntryId := s.nextEntryId + 1,
        clock := s.clock + 1 }

/-- The `for order, (ticker, name) in enumerate(tickers)` loop of `init_db`,
with `ord` the running index. -/
def seedEntriesForTab (tabId : Nat) : Nat → List (String × String) → Store → Store
  | _, [], s => s
  | ord, (tick, nm) :: rest, s =>
      seedEntriesForTab tabId (ord + 1) rest (insertOrIgnoreEntry s tabId tick nm (ord : Int))

/-- The `for tab_name, tickers in DEFAULT_WATCHLIST.items()` loop of
`init_db`; `if not tab_id: continue` skips a missing name and also a tab id
equal to 0 (Python falsiness). -/
def seedWatchlist : List (String × List (String × String)) → Store → Store
  | [], s => s
  | (tabName, ticks) :: rest, s =>
      match tabMapGet s.tabs tabName with
      | none => seedWatchlist rest s
      | some tid =>
          if tid == 0 then seedWatchlist rest s
          else seedWatchlist rest (seedEntriesForTab tid 0 ticks s)

/-- The seeding half of `init_db` (table creation and the legacy sort_order
migration concern schema, not state): when `SELECT COUNT(*) FROM tabs` is 0,
insert the default tabs and then their watchlists; otherwise do nothing. -/
def init_db (s : Store) : Store :=
  if s.tabs.length == 0 then seedWatchlist DEFAULT_WATCHLIST (seedTabs DEFAULT_TABS s)
  else s

/-! ### Market data (src/market_data.py)

Prices are modelled as rationals.  A provider response for one ticker
consists of: whether the outer fetch raises (network error, malformed
response, ...), the `history(period="5d")` bars in chronological order, and
the result of the best-effort `t.info` call (`none` = that call raised). -/

/-- One daily bar of `t.history`.  `volume = none` models the absence of a
"Volume" column; the stored value is the already-truncated `int(...)`. -/
structure Bar where
  close : ℚ
  high : ℚ
  low : ℚ
  volume : Option Int
deriving DecidableEq

/-- The fields of the `t.info` dictionary that `get_quote` reads; `none`
models an absent key. -/
structure ProviderInfo where
  shortName : Option String
  longName : Option String
  fiftyTwoWeekHigh : Option ℚ
  fiftyTwoWeekLow : Option ℚ
  trailingPE : Option ℚ
  forwardPE : Option ℚ
  preMarketPrice : Option ℚ
  postMarketPrice : Option ℚ
deriving DecidableEq

/-- What the external provider yields for one ticker. -/
structure ProviderData where
  fetchFails : Bool
  hist : List Bar
  infoResult : Option ProviderInfo
deriving DecidableEq

/-- The external market-data provider. -/
def Provider : Type := String → ProviderData

/-- The quote dictionary built by `get_quote` (the wall-clock `updated`
field is not modelled). -/
structure Quote where
  ticker : String
  name : String
  long_name : String
  price : ℚ
  change : ℚ
  change_pct : ℚ
  prev_close : ℚ
  high : ℚ
  low : ℚ
  volume : Int
  week52_high : Option ℚ
  week52_low : Option ℚ
  pe_ratio : Option ℚ
  pre_market_price : Option ℚ
  pre_market_change : Option ℚ
  pre_market_change_pct : Option ℚ
  post_market_price : Option ℚ
  post_market_change : Option ℚ
  post_market_change_pct : Option ℚ
deriving DecidableEq

/-- Round half to even, the rounding Python's `round` uses. -/
def roundHalfEven (x : ℚ) : ℤ :=
  if x - ⌊x⌋ < 1 / 2 then ⌊x⌋
  else if 1 / 2 < x - ⌊x⌋ then ⌊x⌋ + 1
  else if ⌊x⌋ % 2 = 0 then ⌊x⌋ else ⌊x⌋ + 1

/-- Python `round(x, 2)` (idealized to exact arithmetic). -/
def round2 (x : ℚ) : ℚ := (roundHalfEven (x * 100) : ℚ) / 100

/-- The enrichment variables of `get_quote` as they stand after the inner
`try` block: `none` for `t.info` raising leaves every variable at its
initialisation (`name = ticker`, the rest `None`). -/
structure Enrichment where
  name : String
  long_name : Option String
  week52_high : Option ℚ
  week52_low : Option ℚ
  pe_ratio : Option ℚ
  pre_market_price : Option ℚ
  pre_market_change : Option ℚ
  pre_market_change_pct : Option ℚ
  post_market_price : Option ℚ
  post_market_change : Option ℚ
  post_market_change_pct : Option ℚ
deriving DecidableEq

/-- The body of the inner `try` of `get_quote`.  Python truthiness is spelled
out: `x or y` on an optional value falls through on `None` and on a falsy
(zero / empty) value, and `if pm_price and pm_price > 0` requires the price
to be present, nonzero and positive. -/
def enrich (ticker : String) (current : ℚ) : Option ProviderInfo → Enrichment
  | none =>
      ⟨ticker, none, none, none, none, none, none, none, none, none, none⟩
  | some info =>
      let name := info.shortName.getD ticker
      let long_name : Option String :=
        some (match info.longName with
              | some ln => if ln = "" then name else ln
              | none => name)
      let pe_ratio : Option ℚ :=
        match info.trailingPE with
        | some v => if v = 0 then info.forwardPE else some v
        | none => info.forwardPE
      let pre : Option ℚ :=
        match info.preMarketPrice with
        | some v => if v ≠ 0 ∧ 0 < v then some v else none
        | none => none
      let post : Option ℚ :=
        match info.postMarketPrice with
        | some v => if v ≠ 0 ∧ 0 < v then some v else none
        | none => none
      ⟨name, long_name, info.fiftyTwoWeekHigh, info.fiftyTwoWeekLow, pe_ratio,
       pre.map (fun v => round2 v),
       pre.map (fun v => round2 (v - current)),
       pre.map (fun v => round2 ((v - current) / current * 100)),
       post.map (fun v => round2 v),
       post.map (fun v => round2 (v - current)),
       post.map (fun v => round2 ((v - current) / current * 100))⟩

/-- `x if x else None`, rounded — the `round(v, 2) if v else None` pattern
of the result dictionary (falsy 0 also yields `None`). -/
def roundIfTruthy (x : Option ℚ) : Option ℚ :=
  match x with
  | some v => if v = 0 then none else some (round2 v)
  | none => none

/-- `prev_close` of `get_quote`: the second-most-recent close, or `current`
when only one bar is available. -/
def prevClose (hist : List Bar) (current : ℚ) : ℚ :=
  match hist.dropLast.getLast? with
  | some b => b.close
  | none => current

/-- The result dictionary of `get_quote`, given the most recent bar, the
previous close and the enrichment variables.  `change = current − prev`,
`change_pct = change / prev × 100` (0 when `prev` is falsy), every monetary
field rounded to two decimals. -/
def quoteFrom (ticker : String) (lastBar : Bar) (prev : ℚ) (e : Enrichment) : Quote :=
  { ticker := pyUpper ticker
    name := e.name
    long_name :=
      match e.long_name with
      | some ln => if ln = "" then e.name else ln
      | none => e.name
    price := round2 lastBar.close
    change := round2 (lastBar.close - prev)
    change_pct := round2 (if prev = 0 then 0 else (lastBar.close - prev) / prev * 100)
    prev_close := round2 prev
    high := round2 lastBar.high
    low := round2 lastBar.low
    volume := lastBar.volume.getD 0
    week52_high := roundIfTruthy e.week52_high
    week52_low := roundIfTruthy e.week52_low
    pe_ratio := roundIfTruthy e.pe_ratio
    pre_market_price := e.pre_market_price
    pre_market_change := e.pre_market_change
    pre_market_change_pct := e.pre_market_change_pct
    post_market_price := e.post_market_price
    post_market_change := e.post_market_change
    post_market_change_pct := e.post_market_change_pct }

/-- `get_quote(ticker)`: `None` when the outer fetch raises or the 5-day
history is empty; otherwise the quote dictionary built from the most recent
close, the previous close and the best-effort enrichment. -/
def get_quote (p : Provider) (ticker : String) : Option Quote :=
  if (p ticker).fetchFails then none
  else
    match (p ticker).hist.getLast? with
    | none => none
    | some lastBar =>
        some (quoteFrom ticker lastBar (prevClose (p ticker).hist lastBar.close)
          (enrich ticker lastBar.close (p ticker).infoResult))

/-- `results[k] = v` on the Python dict modelled as an association list in
insertion order: replace the value when the key is present, else append. -/
def dictInsert (m : List (String × Quote)) (k : String) (v : Quote) : List (String × Quote) :=
  if m.any fun kv => kv.1 == k then
    m.map fun kv => if kv.1 == k then (k, v) else kv
  else m ++ [(k, v)]

/-- Collecting one completed future: `if data: results[ticker.upper()] = data`. -/
def bulkStep (p : Provider) (acc : List (String × Quote)) (t : String) : List (String × Quote) :=
  match get_quote p t with
  | some q => dictInsert acc (pyUpper t) q
  | none => acc

/-- `get_bulk_quotes(tickers)`: one `get_quote` per ticker, collecting
`results[ticker.upper()] = data` for the successful ones.  The thread pool's
completion order is immaterial for the key set; we fold in input order
(one legal completion order). -/
def get_bulk_quotes (p : Provider) (tickers : List String) : List (String × Quote) :=
  tickers.foldl (bulkStep p) []

/-! ### HTTP layer (src/app.py), as far as the claims need it -/

/-- The pieces of a `JSONResponse` that the watchlist-add endpoint sets. -/
structure ApiResponse where
  status_code : Nat
  status : String
  message : Option String
deriving DecidableEq

/-- `POST /api/watchlist/{tab_id}/{ticker}`: calls
`add_ticker(tab_id, ticker.upper(), name)`; on failure answers 409 with
`"{ticker.upper()} already in this list"`. -/
def api_add_to_watchlist (s : Store) (tabId : Nat) (ticker name : String) :
    Store × ApiResponse :=
  let r := add_ticker s tabId (pyUpper ticker) name
  if r.2 then (r.1, ⟨200, "added", none⟩)
  else (r.1, ⟨409, "exists", some (pyUpper ticker ++ " already in this list")⟩)

/-! ### Concrete fixtures used by witnesses and counterexamples -/

/-- A store holding a single tab (id 1) with one watchlist entry. -/
def sampleOneTab : Store := ⟨[⟨1, "Main", 0⟩], [⟨1, 1, "AAPL", "Apple", 0, 0⟩], 2, 2, 1⟩

/-- A store holding two tabs, each with one watchlist entry. -/
def sampleTwoTabs : Store :=
  ⟨[⟨1, "Main", 0⟩, ⟨2, "Alt", 1⟩],
   [⟨1, 1, "AAPL", "Apple", 0, 0⟩, ⟨2, 2, "TLT", "", 0, 1⟩], 3, 3, 2⟩

/-- A store whose only tab has id 2, so that id 1 dangles. -/
def noSuchTab : Store := ⟨[⟨2, "Main", 0⟩], [], 3, 1, 0⟩

/-- The store after `create_tab "A"; create_tab "B"; create_tab "C"` on an
empty database. -/
def threeTabsABC : Store :=
  (create_tab (create_tab (create_tab emptyStore "A").1 "B").1 "C").1

/-- One tab (id 1) with three entries plus a second tab with one entry, for
exercising `reorder_watchlist`. -/
def reorderStore : Store :=
  ⟨[⟨1, "Main", 0⟩, ⟨2, "Alt", 1⟩],
   [⟨1, 1, "AAPL", "", 0, 0⟩, ⟨2, 1, "MSFT", "", 1, 1⟩, ⟨3, 1, "GOOG", "", 2, 2⟩,
    ⟨4, 2, "TLT", "", 0, 3⟩],
   3, 5, 4⟩

/-- The rows `(tab_id, ticker, name, sort_order)` that seeding an empty
store whose next tab id is `n` must produce (§6 seed data). -/
def seedRows (n : Nat) : List (Nat × String × String × Int) :=
  [(n, "AEM", "Agnico Eagle Mines", 0),
   (n, "TLT", "20+ Year Treasury ETF", 1),
   (n, "VTI", "Total Stock Market ETF", 2),
   (n, "FSAGX", "Fidelity Gold Fund", 3),
   (n + 1, "AAPL", "Apple Inc.", 0),
   (n + 1, "AMZN", "Amazon.com Inc.", 1),
   (n + 1, "GOOG", "Alphabet Inc.", 2),
   (n + 1, "META", "Meta Platforms Inc.", 3),
   (n + 1, "TSLA", "Tesla Inc.", 4),
   (n + 1, "MSFT", "Microsoft Corporation", 5),
   (n + 1, "NVDA", "NVIDIA Corporation", 6),
   (n + 1, "MAGS", "Roundhill Magnificent Seven ETF", 7),
   (n + 2, "ACWI", "iShares MSCI ACWI ETF", 0),
   (n + 2, "EFA", "iShares MSCI EAFE ETF", 1),
   (n + 2, "EEM", "iShares MSCI Emerging Markets ETF", 2),
   (n + 2, "BCOM.XA", "Bloomberg Commodity Index", 3),
   (n + 2, "GLD", "SPDR Gold Shares", 4),
   (n + 2, "SLV", "iShares Silver Trust", 5),
   (n + 2, "SPY", "SPDR S&P 500 ETF", 6),
   (n + 2, "IWM", "iShares Russell 2000 ETF", 7),
   (n + 3, "XLK", "Technology", 0),
   (n + 3, "XLF", "Financials", 1),
   (n + 3, "XLV", "Health Care", 2),
   (n + 3, "XLY", "Consumer Discretionary", 3),
   (n + 3, "XLC", "Communication Services", 4),
   (n + 3, "XLI", "Industrials", 5),
   (n + 3, "XLP", "Consumer Staples", 6),
   (n + 3, "XLE", "Energy", 7),
   (n + 3, "XLU", "Utilities", 8),
   (n + 3, "XLRE", "Real Estate", 9),
   (n + 3, "XLB", "Materials", 10)]

/-- A 5-day bar used by market-data witnesses. -/
def barA : Bar := ⟨10, 12, 9, some 5⟩

/-- A second, most recent, bar used by market-data witnesses. -/
def barB : Bar := ⟨11, 13, 8, some 7⟩

/-- A `t.info` record whose pre-market price is positive and whose
post-market price is falsy. -/
def sampleInfo : ProviderInfo :=
  ⟨some "Nm", some "Long Nm", some 20, some 5, some 3, none, some 6, some 0⟩

/-- A provider fixture: "one" has a single bar and a failing `t.info`
call, "bad" raises on fetch, everything else has two bars and a full
`t.info`. -/
def sampleProvider : Provider := fun t =>
  if t == "one" then ⟨false, [barB], none⟩
  else if t == "bad" then ⟨true, [barA, barB], none⟩
  else ⟨false, [barA, barB], some sampleInfo⟩

/-! ## Helper lemmas -/

theorem le_foldl_max (xs : List Int) (a : Int) : a ≤ xs.foldl max a := by
  induction xs generalizing a with
  | nil => exact le_refl a
  | cons x xs ih => exact le_trans (le_max_left a x) (ih (max a x))

theorem mem_le_foldl_max (xs : List Int) (a y : Int) (hy : y ∈ xs) : y ≤ xs.foldl max a := by
  induction xs generalizing a with
  | nil => cases hy
  | cons x xs ih =>
      rcases List.mem_cons.mp hy with h | h
      · subst h; exact le_trans (le_max_right a y) (le_foldl_max xs (max a y))
      · exact ih (max a x) h

theorem foldl_max_mem (xs : List Int) (a : Int) :
    xs.foldl max a = a ∨ xs.foldl max a ∈ xs := by
  induction xs generalizing a with
  | nil => exact Or.inl rfl
  | cons x xs ih =>
      rcases ih (max a x) with h | h
      · rcases max_choice a x with hm | hm
        · exact Or.inl (by rw [List.foldl_cons, h, hm])
        · exact Or.inr (by rw [List.foldl_cons, h, hm]; exact List.mem_cons_self x xs)
      · exact Or.inr (List.mem_cons_of_mem x h)

/-- `maxTabOrder` really is the maximum of the stored tab sort orders when
any tab exists. -/
theorem maxTabOrder_spec (s : Store) (h : s.tabs ≠ []) :
    (∀ t ∈ s.tabs, t.sort_order ≤ maxTabOrder s) ∧
      ∃ t ∈ s.tabs, t.sort_order = maxTabOrder s := by
  unfold maxTabOrder
  rcases hm : s.tabs.map Tab.sort_order with _ | ⟨x, xs⟩
  · exact absurd (List.map_eq_nil_iff.mp hm) h
  constructor
  · intro t ht
    have : t.sort_order ∈ s.tabs.map Tab.sort_order := List.mem_map_of_mem Tab.sort_order ht
    rw [hm] at this
    rcases List.mem_cons.mp this with h1 | h1
    · rw [h1]; exact le_foldl_max xs x
    · exact mem_le_foldl_max xs x _ h1
  · have : xs.foldl max x ∈ s.tabs.map Tab.sort_order := by
      rw [hm]
      rcases foldl_max_mem xs x with h1 | h1
      · rw [h1]; exact List.mem_cons_self x xs
      · exact List.mem_cons_of_mem x h1
    rcases List.mem_map.mp this with ⟨t, ht, hts⟩
    exact ⟨t, ht, hts⟩

/-! ## C1 -/

/-- C1: the store never holds zero tabs.  With exactly one tab,
`delete_tab` returns false and mutates nothing, whatever the id; with at
least two tabs and an id that is present, it returns true, removes that
tab row, and removes every watchlist row whose `tab_id` equals the id. -/
theorem delete_tab_last_guard (s : Store) (tabId : Nat) :
    (s.tabs.length = 1 → delete_tab s tabId = (s, false)) ∧
    (2 ≤ s.tabs.length → (∃ t ∈ s.tabs, t.id = tabId) →
      (delete_tab s tabId).2 = true ∧
      (delete_tab s tabId).1.tabs = s.tabs.filter (fun t => !(t.id == tabId)) ∧
      (delete_tab s tabId).1.watchlist = s.watchlist.filter (fun e => !(e.tab_id == tabId))) := by
  constructor
  · intro h
    unfold delete_tab
    rw [if_pos (by omega)]
  · intro h2 hmem
    have hnot : ¬ s.tabs.length ≤ 1 := by omega
    unfold delete_tab
    rw [if_neg hnot]
    refine ⟨?_, rfl, rfl⟩
    rcases hmem with ⟨t, ht, hid⟩
    simp only [List.any_eq_true, beq_iff_eq]
    exact ⟨t, ht, hid⟩

/-- Witness for C1 at concrete one-tab and two-tab stores. -/
theorem delete_tab_last_guard_witness :
    (sampleOneTab.tabs.length = 1 ∧ delete_tab sampleOneTab 1 = (sampleOneTab, false)) ∧
    (2 ≤ sampleTwoTabs.tabs.length ∧ (∃ t ∈ sampleTwoTabs.tabs, t.id = 2) ∧
      (delete_tab sampleTwoTabs 2).2 = true ∧
      (delete_tab sampleTwoTabs 2).1.tabs = sampleTwoTabs.tabs.filter (fun t => !(t.id == 2)) ∧
      (delete_tab sampleTwoTabs 2).1.watchlist =
        sampleTwoTabs.watchlist.filter (fun e => !(e.tab_id == 2))) :=
  ⟨⟨by decide, (delete_tab_last_guard sampleOneTab 1).1 (by decide)⟩,
   ⟨by decide, ⟨⟨2, "Alt", 1⟩, by decide, by decide⟩,
    (delete_tab_last_guard sampleTwoTabs 2).2 (by decide) ⟨⟨2, "Alt", 1⟩, by decide, by decide⟩⟩⟩

/-! ## C2 -/

/-- C2 counterexample: on an empty store the first created tab gets
`sort_order` 1 (COALESCE(MAX, 0) + 1), not 0, and creating "A", "B", "C"
yields sort orders 1, 2, 3 — though `get_tabs` does list them in creation
order. -/
theorem create_tab_empty_sort_order_cex :
    (create_tab emptyStore "A").2.sort_order = 1 ∧
    ¬ ((get_tabs threeTabsABC).map (fun t => (t.name, t.sort_order)) =
        [("A", 0), ("B", 1), ("C", 2)]) ∧
    (get_tabs threeTabsABC).map (fun t => (t.name, t.sort_order)) =
      [("A", 1), ("B", 2), ("C", 3)] := by
  refine ⟨by decide, by decide, by decide⟩

/-- C2 amended: `create_tab` stores the trimmed name with
`sort_order = COALESCE(MAX(sort_order), 0) + 1` — that is, max + 1 when tabs
exist and 1 (not 0) on an empty store — appending the row; "A", "B", "C" on
an empty store get sort orders 1, 2, 3 and `get_tabs` lists them in creation
order. -/
theorem create_tab_sort_order (s : Store) (name : String) :
    (create_tab s name).2 = ⟨s.nextTabId, pyStrip name, maxTabOrder s + 1⟩ ∧
    (create_tab s name).1.tabs = s.tabs ++ [(create_tab s name).2] ∧
    (s.tabs = [] → (create_tab s name).2.sort_order = 1) ∧
    (s.tabs ≠ [] →
      (∀ t ∈ s.tabs, t.sort_order + 1 ≤ (create_tab s name).2.sort_order) ∧
      ∃ t ∈ s.tabs, t.sort_order + 1 = (create_tab s name).2.sort_order) ∧
    (get_tabs threeTabsABC).map (fun t => (t.name, t.sort_order)) =
      [("A", 1), ("B", 2), ("C", 3)] := by
  refine ⟨rfl, rfl, ?_, ?_, by decide⟩
  · intro h
    show maxTabOrder s + 1 = 1
    unfold maxTabOrder
    rw [h]
    rfl
  · intro h
    obtain ⟨hub, t, ht, hmax⟩ := maxTabOrder_spec s h
    constructor
    · intro u hu
      have := hub u hu
      show u.sort_order + 1 ≤ maxTabOrder s + 1
      omega
    · exact ⟨t, ht, by show t.sort_order + 1 = maxTabOrder s + 1; omega⟩

/-- Witness for C2 at a concrete empty and non-empty store. -/
theorem create_tab_sort_order_witness :
    (emptyStore.tabs = [] ∧ (create_tab emptyStore "X").2.sort_order = 1) ∧
    (sampleTwoTabs.tabs ≠ [] ∧
      ∃ t ∈ sampleTwoTabs.tabs, t.sort_order + 1 = (create_tab sampleTwoTabs "X").2.sort_order) :=
  ⟨⟨rfl, (create_tab_sort_order emptyStore "X").2.2.1 rfl⟩,
   ⟨by decide, ((create_tab_sort_order sampleTwoTabs "X").2.2.2.1 (by decide)).2⟩⟩

/-! ## C3 -/

/-- `add_ticker` succeeds exactly when the tab exists and the normalized
pair is new. -/
theorem add_ticker_true_iff (s : Store) (tabId : Nat) (ticker nm : String) :
    (add_ticker s tabId ticker nm).2 = true ↔
      ((∃ t ∈ s.tabs, t.id = tabId) ∧
        ¬ ∃ e ∈ s.watchlist, e.tab_id = tabId ∧ e.ticker = normTicker ticker) := by
  unfold add_ticker
  split
  case isTrue h =>
    simp only [Bool.and_eq_true, Bool.not_eq_true', List.any_eq_true, List.any_eq_false,
      beq_iff_eq, not_and] at h
    simp only [true_iff]
    exact ⟨h.1, fun hc => by
      obtain ⟨e, he, h1, h2⟩ := hc
      exact h.2 e he h1 h2⟩
  case isFalse h =>
    simp only [Bool.and_eq_true, Bool.not_eq_true', List.any_eq_true, List.any_eq_false,
      beq_iff_eq, not_and] at h
    simp only [Bool.false_eq_true, false_iff]
    rintro ⟨hex, hnew⟩
    exact h hex (fun e he h1 h2 => hnew ⟨e, he, h1, h2⟩)

/-- On failure `add_ticker` leaves the store untouched. -/
theorem add_ticker_false_state (s : Store) (tabId : Nat) (ticker nm : String)
    (h : (add_ticker s tabId ticker nm).2 = false) : (add_ticker s tabId ticker nm).1 = s := by
  unfold add_ticker at h ⊢
  split at h
  · cases h
  · split
    · simp_all
    · rfl

/-- On success `add_ticker` appends exactly one normalized row. -/
theorem add_ticker_true_state (s : Store) (tabId : Nat) (ticker nm : String)
    (h : (add_ticker s tabId ticker nm).2 = true) :
    (add_ticker s tabId ticker nm).1.watchlist =
      s.watchlist ++
        [⟨s.nextEntryId, tabId, normTicker ticker, nm, tabMaxEntryOrder s tabId + 1, s.clock⟩] := by
  unfold add_ticker at h ⊢
  split at h
  · split
    · rfl
    · simp_all
  · cases h

/-- C3 counterexample: with no tab of id 1 in the store, `add_ticker 1
"AAPL"` returns false although the (1, "AAPL") pair does not exist — the
foreign-key violation is reported through the same boolean as a duplicate,
so "returns false exactly when the pair already exists" fails. -/
theorem add_ticker_false_iff_cex :
    ¬ (((add_ticker noSuchTab 1 "AAPL" "").2 = false) ↔
        (∃ e ∈ noSuchTab.watchlist, e.tab_id = 1 ∧ e.ticker = normTicker "AAPL")) := by
  decide

/-- C3 amended: the ticker is stored uppercased and trimmed with
`sort_order = COALESCE(MAX for the tab, -1) + 1` (0 for an empty tab);
`add_ticker` returns true exactly when the tab exists and the normalized
pair is new (so false on a duplicate and on a missing tab), mutating
nothing on failure; adding "aapl" and then "AAPL" always leaves the second
call returning false. -/
theorem add_ticker_normalizes_and_rejects_dup (s : Store) (tabId : Nat) (ticker nm nm2 : String) :
    ((add_ticker s tabId ticker nm).2 = true ↔
      ((∃ t ∈ s.tabs, t.id = tabId) ∧
        ¬ ∃ e ∈ s.watchlist, e.tab_id = tabId ∧ e.ticker = normTicker ticker)) ∧
    ((add_ticker s tabId ticker nm).2 = true →
      (add_ticker s tabId ticker nm).1.watchlist =
        s.watchlist ++
          [⟨s.nextEntryId, tabId, normTicker ticker, nm, tabMaxEntryOrder s tabId + 1, s.clock⟩]) ∧
    ((add_ticker s tabId ticker nm).2 = false → (add_ticker s tabId ticker nm).1 = s) ∧
    (s.watchlist.filter (fun e => e.tab_id == tabId) = [] → tabMaxEntryOrder s tabId + 1 = 0) ∧
    (add_ticker (add_ticker s tabId "aapl" nm).1 tabId "AAPL" nm2).2 = false := by
  refine ⟨add_ticker_true_iff s tabId ticker nm, add_ticker_true_state s tabId ticker nm,
    add_ticker_false_state s tabId ticker nm, ?_, ?_⟩
  · intro h
    unfold tabMaxEntryOrder
    rw [h]
    rfl
  · have hnorm : normTicker "AAPL" = normTicker "aapl" := by decide
    rcases hb : (add_ticker s tabId "aapl" nm).2 with _ | _
    · rw [add_ticker_false_state s tabId "aapl" nm hb]
      rcases hb2 : (add_ticker s tabId "AAPL" nm2).2 with _ | _
      · rfl
      · obtain ⟨hex, hnew⟩ := (add_ticker_true_iff s tabId "AAPL" nm2).mp hb2
        have : ¬ ((∃ t ∈ s.tabs, t.id = tabId) ∧
            ¬ ∃ e ∈ s.watchlist, e.tab_id = tabId ∧ e.ticker = normTicker "aapl") := by
          intro hc
          exact absurd ((add_ticker_true_iff s tabId "aapl" nm).mpr hc) (by rw [hb]; simp)
        rw [hnorm] at hnew
        exact absurd ⟨hex, hnew⟩ this
    · rcases hb2 : (add_ticker (add_ticker s tabId "aapl" nm).1 tabId "AAPL" nm2).2 with _ | _
      · rfl
      · obtain ⟨hex, hnew⟩ := (add_ticker_true_iff _ tabId "AAPL" nm2).mp hb2
        apply absurd hnew
        simp only [not_not]
        refine ⟨⟨s.nextEntryId, tabId, normTicker "aapl", nm,
          tabMaxEntryOrder s tabId + 1, s.clock⟩, ?_, rfl, hnorm⟩
        rw [add_ticker_true_state s tabId "aapl" nm hb]
        simp

/-- Witness for C3 at a concrete store: a fresh add succeeds and appends,
and the aapl/AAPL double add fails. -/
theorem add_ticker_normalizes_and_rejects_dup_witness :
    ((add_ticker sampleTwoTabs 1 " msft " "m").2 = true ∧
      (add_ticker sampleTwoTabs 1 " msft " "m").1.watchlist =
        sampleTwoTabs.watchlist ++
          [⟨sampleTwoTabs.nextEntryId, 1, normTicker " msft ", "m",
            tabMaxEntryOrder sampleTwoTabs 1 + 1, sampleTwoTabs.clock⟩]) ∧
    (add_ticker (add_ticker sampleTwoTabs 1 "aapl" "x").1 1 "AAPL" "y").2 = false :=
  ⟨⟨by decide,
    (add_ticker_normalizes_and_rejects_dup sampleTwoTabs 1 " msft " "m" "m").2.1 (by decide)⟩,
   (add_ticker_normalizes_and_rejects_dup sampleTwoTabs 1 "ignored" "x" "y").2.2.2.2⟩

/-! ## C9 -/

/-- C9 counterexample: `create_tab` on an all-whitespace name stores the
empty string, so a Tab with an empty name can exist in the store —
non-emptiness is not enforced on write. -/
theorem create_tab_empty_name_cex :
    (create_tab emptyStore "  ").2 ∈ (create_tab emptyStore "  ").1.tabs ∧
    ¬ ((create_tab emptyStore "  ").2.name ≠ "") := by
  decide

/-- C9 amended: `create_tab` and `rename_tab` store the trimmed name
verbatim; the stored name is non-empty only when the trimmed input is, and
an all-whitespace input yields a Tab whose stored name is empty. -/
theorem tab_names_are_trimmed (s : Store) (nm : String) (tabId : Nat) :
    (create_tab s nm).2.name = pyStrip nm ∧
    (create_tab s nm).1.tabs = s.tabs ++ [(create_tab s nm).2] ∧
    (rename_tab s tabId nm).1.tabs =
      s.tabs.map (fun t => if t.id == tabId then { t with name := pyStrip nm } else t) ∧
    ((create_tab s nm).2.name ≠ "" ↔ pyStrip nm ≠ "") := by
  exact ⟨rfl, rfl, rfl, Iff.rfl⟩

/-! ## C10 -/

/-- C10: when no Tab with `tabId` exists, `add_ticker` returns false with
no insertion (the foreign-key violation surfaces as the same boolean as a
duplicate), and the HTTP layer answers the POST with 409 and the
duplicate-ticker message rather than a not-found response. -/
theorem add_ticker_missing_tab_conflict (s : Store) (tabId : Nat) (ticker nm : String)
    (h : ∀ t ∈ s.tabs, t.id ≠ tabId) :
    add_ticker s tabId ticker nm = (s, false) ∧
    api_add_to_watchlist s tabId ticker nm =
      (s, ⟨409, "exists", some (pyUpper ticker ++ " already in this list")⟩) := by
  have hany : ∀ tick : String, (add_ticker s tabId tick nm) = (s, false) := by
    intro tick
    unfold add_ticker
    rw [if_neg]
    intro hc
    rcases Bool.and_eq_true .. |>.mp hc with ⟨h1, _⟩
    rcases List.any_eq_true.mp h1 with ⟨t, ht, hid⟩
    exact h t ht (beq_iff_eq.mp hid)
  refine ⟨hany ticker, ?_⟩
  unfold api_add_to_watchlist
  rw [hany (pyUpper ticker)]
  rfl

/-- Witness for C10 at a store whose only tab has id 2. -/
theorem add_ticker_missing_tab_conflict_witness :
    (∀ t ∈ noSuchTab.tabs, t.id ≠ 1) ∧
    add_ticker noSuchTab 1 "aapl" "" = (noSuchTab, false) ∧
    api_add_to_watchlist noSuchTab 1 "aapl" "" =
      (noSuchTab, ⟨409, "exists", some (pyUpper "aapl" ++ " already in this list")⟩) :=
  ⟨by decide, add_ticker_missing_tab_conflict noSuchTab 1 "aapl" "" (by decide)⟩

/-! ## C5 -/

/-- Keys after a dict insertion: the old keys plus the inserted one. -/
theorem dictInsert_keys (m : List (String × Quote)) (k : String) (v : Quote) (key : String) :
    key ∈ (dictInsert m k v).map Prod.fst ↔ key ∈ m.map Prod.fst ∨ key = k := by
  unfold dictInsert
  split
  case isTrue h =>
    have hk : k ∈ m.map Prod.fst := by
      rcases List.any_eq_true.mp h with ⟨kv, hkv, he⟩
      exact beq_iff_eq.mp he ▸ List.mem_map_of_mem Prod.fst hkv
    have hmap : (m.map fun kv => if kv.1 == k then (k, v) else kv).map Prod.fst
        = m.map Prod.fst := by
      rw [List.map_map]
      refine List.map_congr_left ?_
      intro kv _
      by_cases hkv : kv.1 == k
      · simp only [Function.comp_apply, if_pos hkv]
        exact (beq_iff_eq.mp hkv).symm
      · simp only [Function.comp_apply, if_neg hkv]
    rw [hmap]
    constructor
    · exact Or.inl
    · rintro (hm | rfl)
      · exact hm
      · exact hk
  case isFalse h =>
    rw [List.map_append]
    simp [List.mem_append]

/-- Key membership across the collection fold of `get_bulk_quotes`. -/
theorem bulkFold_keys (p : Provider) :
    ∀ (ts : List String) (acc : List (String × Quote)) (key : String),
      key ∈ ((ts.foldl (bulkStep p) acc).map Prod.fst) ↔
        key ∈ acc.map Prod.fst ∨
          ∃ t ∈ ts, pyUpper t = key ∧ (get_quote p t).isSome = true := by
  intro ts
  induction ts with
  | nil => intro acc key; simp
  | cons t ts ih =>
      intro acc key
      rw [List.foldl_cons, ih]
      have hstep : key ∈ (bulkStep p acc t).map Prod.fst ↔
          key ∈ acc.map Prod.fst ∨ (pyUpper t = key ∧ (get_quote p t).isSome = true) := by
        unfold bulkStep
        rcases hq : get_quote p t with _ | q
        · simp [hq]
        · rw [dictInsert_keys]
          simp only [hq, Option.isSome_some, and_true]
          constructor
          · rintro (hm | rfl)
            · exact Or.inl hm
            · exact Or.inr rfl
          · rintro (hm | rfl)
            · exact Or.inl hm
            · exact Or.inr rfl
      rw [hstep]
      simp only [List.mem_cons]
      constructor
      · rintro ((hm | ht) | ⟨u, hu, hk⟩)
        · exact Or.inl hm
        · exact Or.inr ⟨t, Or.inl rfl, ht⟩
        · exact Or.inr ⟨u, Or.inr hu, hk⟩
      · rintro (hm | ⟨u, (rfl | hu), hk⟩)
        · exact Or.inl (Or.inl hm)
        · exact Or.inl (Or.inr hk)
        · exact Or.inr ⟨u, hu, hk⟩

/-- C5: the keys of the `get_bulk_quotes` result are exactly the uppercased
input tickers whose single-ticker fetch succeeded; a failed fetch (error,
empty history, malformed response — all modelled by `get_quote` returning
`none`) is omitted, and the function is total, never propagating an
exception. -/
theorem get_bulk_quotes_keys (p : Provider) (tickers : List String) (key : String) :
    key ∈ (get_bulk_quotes p tickers).map Prod.fst ↔
      ∃ t ∈ tickers, pyUpper t = key ∧ (get_quote p t).isSome = true := by
  unfold get_bulk_quotes
  rw [bulkFold_keys p tickers [] key]
  simp

/-- Witness for C5: a provider with data for "aapl" and a failing
"bad" symbol — the map keeps exactly the first key. -/
theorem get_bulk_quotes_keys_witness :
    ("AAPL" ∈ (get_bulk_quotes sampleProvider ["aapl", "bad"]).map Prod.fst ↔
      ∃ t ∈ ["aapl", "bad"], pyUpper t = "AAPL" ∧ (get_quote sampleProvider t).isSome = true) ∧
    ("BAD" ∈ (get_bulk_quotes sampleProvider ["aapl", "bad"]).map Prod.fst ↔
      ∃ t ∈ ["aapl", "bad"], pyUpper t = "BAD" ∧ (get_quote sampleProvider t).isSome = true) :=
  ⟨get_bulk_quotes_keys sampleProvider ["aapl", "bad"] "AAPL",
   get_bulk_quotes_keys sampleProvider ["aapl", "bad"] "BAD"⟩


/-! ## C6 -/

theorem prevClose_concat2 (l : List Bar) (a b : Bar) (c : ℚ) :
    prevClose (l ++ [a] ++ [b]) c = a.close := by
  unfold prevClose
  rw [List.dropLast_concat, List.getLast?_concat]

/-- C6: with a non-empty 5-day history the quote's price is the most recent
close, prev_close the second-most-recent close (or the most recent when a
single bar exists), change = price − prev_close, change_pct =
change / prev_close × 100 (0 when prev_close is 0), each rounded to two
decimals; with an empty history `get_quote` yields no quote. -/
theorem get_quote_price_fields (p : Provider) (t : String) :
    ((p t).hist = [] → get_quote p t = none) ∧
    (∀ (l : List Bar) (a b : Bar), (p t).fetchFails = false → (p t).hist = l ++ [a] ++ [b] →
      ∃ q, get_quote p t = some q ∧
        q.price = round2 b.close ∧
        q.prev_close = round2 a.close ∧
        q.change = round2 (b.close - a.close) ∧
        q.change_pct =
          round2 (if a.close = 0 then 0 else (b.close - a.close) / a.close * 100)) ∧
    (∀ b : Bar, (p t).fetchFails = false → (p t).hist = [b] →
      ∃ q, get_quote p t = some q ∧
        q.price = round2 b.close ∧
        q.prev_close = round2 b.close ∧
        q.change = round2 0 ∧
        q.change_pct = round2 0) := by
  refine ⟨?_, ?_, ?_⟩
  · intro h
    unfold get_quote
    rw [h]
    rcases (p t).fetchFails with _ | _ <;> rfl
  · intro l a b hf hh
    unfold get_quote
    rw [hf, hh, List.getLast?_concat]
    refine ⟨_, rfl, rfl, ?_, ?_, ?_⟩
    all_goals simp only [quoteFrom, prevClose_concat2]
  · intro b hf hh
    unfold get_quote
    rw [hf, hh]
    refine ⟨_, rfl, rfl, rfl, ?_, ?_⟩
    · show round2 (b.close - prevClose [b] b.close) = round2 0
      show round2 (b.close - b.close) = round2 0
      rw [sub_self]
    · show round2
        (if prevClose [b] b.close = 0 then 0
         else (b.close - prevClose [b] b.close) / prevClose [b] b.close * 100) = round2 0
      show round2 (if b.close = 0 then 0 else (b.close - b.close) / b.close * 100) = round2 0
      rw [sub_self, zero_div, zero_mul, ite_self]

/-- Witness for C6 at a two-bar and a one-bar provider response. -/
theorem get_quote_price_fields_witness :
    ((sampleProvider "AAPL").fetchFails = false ∧
      (sampleProvider "AAPL").hist = [] ++ [barA] ++ [barB] ∧
      ∃ q, get_quote sampleProvider "AAPL" = some q ∧
        q.price = round2 barB.close ∧
        q.prev_close = round2 barA.close ∧
        q.change = round2 (barB.close - barA.close) ∧
        q.change_pct =
          round2 (if barA.close = 0 then 0 else (barB.close - barA.close) / barA.close * 100)) ∧
    ((sampleProvider "one").fetchFails = false ∧
      (sampleProvider "one").hist = [barB] ∧
      ∃ q, get_quote sampleProvider "one" = some q ∧
        q.price = round2 barB.close ∧ q.prev_close = round2 barB.close ∧
        q.change = round2 0 ∧ q.change_pct = round2 0) :=
  ⟨⟨by decide, by decide,
    (get_quote_price_fields sampleProvider "AAPL").2.1 [] barA barB (by decide) (by decide)⟩,
   ⟨by decide, by decide,
    (get_quote_price_fields sampleProvider "one").2.2 barB (by decide) (by decide)⟩⟩

/-! ## C7 -/

/-- C7: the pre-market (post-market) price/change/change_pct fields are
populated exactly when the provider's respective price is present and
strictly positive, the change fields being computed against the
regular-session current price and rounded to two decimals; a failed
enrichment call (`t.info` raising) leaves all of them null while the fetch
itself still succeeds. -/
theorem get_quote_extended_hours (p : Provider) (t : String) (lastBar : Bar)
    (hf : (p t).fetchFails = false) (hh : (p t).hist.getLast? = some lastBar) :
    ∃ q, get_quote p t = some q ∧
      ((p t).infoResult = none →
        q.pre_market_price = none ∧ q.pre_market_change = none ∧
        q.pre_market_change_pct = none ∧ q.post_market_price = none ∧
        q.post_market_change = none ∧ q.post_market_change_pct = none) ∧
      (∀ info, (p t).infoResult = some info →
        ((∀ v, info.preMarketPrice = some v → 0 < v →
            q.pre_market_price = some (round2 v) ∧
            q.pre_market_change = some (round2 (v - lastBar.close)) ∧
            q.pre_market_change_pct =
              some (round2 ((v - lastBar.close) / lastBar.close * 100))) ∧
         ((info.preMarketPrice = none ∨ ∃ v, info.preMarketPrice = some v ∧ v ≤ 0) →
            q.pre_market_price = none ∧ q.pre_market_change = none ∧
            q.pre_market_change_pct = none) ∧
         (∀ v, info.postMarketPrice = some v → 0 < v →
            q.post_market_price = some (round2 v) ∧
            q.post_market_change = some (round2 (v - lastBar.close)) ∧
            q.post_market_change_pct =
              some (round2 ((v - lastBar.close) / lastBar.close * 100))) ∧
         ((info.postMarketPrice = none ∨ ∃ v, info.postMarketPrice = some v ∧ v ≤ 0) →
            q.post_market_price = none ∧ q.post_market_change = none ∧
            q.post_market_change_pct = none))) := by
  unfold get_quote
  rw [hf, hh]
  refine ⟨_, rfl, ?_, ?_⟩
  · intro hi
    rw [hi]
    exact ⟨rfl, rfl, rfl, rfl, rfl, rfl⟩
  · intro info hi
    rw [hi]
    refine ⟨?_, ?_, ?_, ?_⟩
    · intro v hv hpos
      simp only [quoteFrom, enrich, hv]
      rw [if_pos ⟨ne_of_gt hpos, hpos⟩]
      exact ⟨rfl, rfl, rfl⟩
    · rintro (hv | ⟨v, hv, hle⟩)
      · simp only [quoteFrom, enrich, hv]
        exact ⟨rfl, rfl, rfl⟩
      · simp only [quoteFrom, enrich, hv]
        rw [if_neg (by rintro ⟨hne, hpos⟩; exact absurd hpos (not_lt.mpr hle))]
        exact ⟨rfl, rfl, rfl⟩
    · intro v hv hpos
      simp only [quoteFrom, enrich, hv]
      rw [if_pos ⟨ne_of_gt hpos, hpos⟩]
      exact ⟨rfl, rfl, rfl⟩
    · rintro (hv | ⟨v, hv, hle⟩)
      · simp only [quoteFrom, enrich, hv]
        exact ⟨rfl, rfl, rfl⟩
      · simp only [quoteFrom, enrich, hv]
        rw [if_neg (by rintro ⟨hne, hpos⟩; exact absurd hpos (not_lt.mpr hle))]
        exact ⟨rfl, rfl, rfl⟩

/-- Witness for C7: `sampleInfo` has a positive pre-market price and a
falsy (zero) post-market price. -/
theorem get_quote_extended_hours_witness :
    ((sampleProvider "AAPL").fetchFails = false ∧
      (sampleProvider "AAPL").hist.getLast? = some barB) ∧
    ∃ q, get_quote sampleProvider "AAPL" = some q ∧
      ((sampleProvider "AAPL").infoResult = none →
        q.pre_market_price = none ∧ q.pre_market_change = none ∧
        q.pre_market_change_pct = none ∧ q.post_market_price = none ∧
        q.post_market_change = none ∧ q.post_market_change_pct = none) ∧
      (∀ info, (sampleProvider "AAPL").infoResult = some info →
        ((∀ v, info.preMarketPrice = some v → 0 < v →
            q.pre_market_price = some (round2 v) ∧
            q.pre_market_change = some (round2 (v - barB.close)) ∧
            q.pre_market_change_pct =
              some (round2 ((v - barB.close) / barB.close * 100))) ∧
         ((info.preMarketPrice = none ∨ ∃ v, info.preMarketPrice = some v ∧ v ≤ 0) →
            q.pre_market_price = none ∧ q.pre_market_change = none ∧
            q.pre_market_change_pct = none) ∧
         (∀ v, info.postMarketPrice = some v → 0 < v →
            q.post_market_price = some (round2 v) ∧
            q.post_market_change = some (round2 (v - barB.close)) ∧
            q.post_market_change_pct =
              some (round2 ((v - barB.close) / barB.close * 100))) ∧
         ((info.postMarketPrice = none ∨ ∃ v, info.postMarketPrice = some v ∧ v ≤ 0) →
            q.post_market_price = none ∧ q.post_market_change = none ∧
            q.post_market_change_pct = none))) :=
  ⟨⟨by decide, by decide⟩,
   get_quote_extended_hours sampleProvider "AAPL" barB (by decide) (by decide)⟩

/-! ## C8 -/

theorem insertOrIgnoreEntry_tabs (s : Store) (tabId : Nat) (tick nm : String) (ord : Int) :
    (insertOrIgnoreEntry s tabId tick nm ord).tabs = s.tabs := by
  unfold insertOrIgnoreEntry
  split <;> rfl

theorem seedEntriesForTab_tabs (tabId : Nat) :
    ∀ (l : List (String × String)) (ord : Nat) (s : Store),
      (seedEntriesForTab tabId ord l s).tabs = s.tabs := by
  intro l
  induction l with
  | nil => intro ord s; rfl
  | cons p rest ih =>
      intro ord s
      rcases p with ⟨tick, nm⟩
      rw [seedEntriesForTab, ih, insertOrIgnoreEntry_tabs]

theorem seedWatchlist_tabs :
    ∀ (l : List (String × List (String × String))) (s : Store),
      (seedWatchlist l s).tabs = s.tabs := by
  intro l
  induction l with
  | nil => intro s; rfl
  | cons p rest ih =>
      intro s
      rcases p with ⟨nm, ticks⟩
      rw [seedWatchlist]
      rcases tabMapGet s.tabs nm with _ | tid
      · exact ih s
      · show (if tid == 0 then seedWatchlist rest s
              else seedWatchlist rest (seedEntriesForTab tid 0 ticks s)).tabs = s.tabs
        split
        · exact ih s
        · rw [ih, seedEntriesForTab_tabs]

theorem seedTabs_tabs_length :
    ∀ (l : List (String × Int)) (s : Store),
      (seedTabs l s).tabs.length = s.tabs.length + l.length := by
  intro l
  induction l with
  | nil => intro s; rfl
  | cons p rest ih =>
      intro s
      rcases p with ⟨nm, o⟩
      rw [seedTabs, ih]
      simp [insertTabRow]
      omega

/-- C8: on a store with zero tabs (hence, by the enforced foreign key, no
watchlist rows; `0 < nextTabId` since SQLite ids start at 1), `init_db`
inserts exactly the four default tabs with sort_order 0..3 and exactly the
fixed seed rows, each entry's sort_order being its index in its tab's seed
list; with at least one tab present it inserts nothing, so running it twice
equals running it once. -/
theorem init_db_seeds_once (s : Store) :
    (s.tabs = [] → s.watchlist = [] → 0 < s.nextTabId →
      (init_db s).tabs =
        [⟨s.nextTabId, "Main", 0⟩, ⟨s.nextTabId + 1, "MAG7", 1⟩,
         ⟨s.nextTabId + 2, "AA", 2⟩, ⟨s.nextTabId + 3, "US Sectors", 3⟩] ∧
      (init_db s).watchlist.map (fun e => (e.tab_id, e.ticker, e.name, e.sort_order)) =
        seedRows s.nextTabId) ∧
    (s.tabs ≠ [] → init_db s = s) ∧
    init_db (init_db s) = init_db s := by
  have hskip : ∀ u : Store, u.tabs ≠ [] → init_db u = u := by
    intro u hu
    unfold init_db
    rw [if_neg]
    simp only [beq_iff_eq]
    intro hc
    exact hu (List.length_eq_zero.mp hc)
  refine ⟨?_, hskip s, ?_⟩
  · intro h1 h2 h3
    obtain ⟨tabs, wl, n, ne, ck⟩ := s
    simp only at h1 h2 h3
    subst h1
    subst h2
    obtain ⟨m, rfl⟩ : ∃ m, n = m + 1 := ⟨n - 1, by omega⟩
    simp [init_db, seedTabs, insertTabRow, DEFAULT_TABS, seedWatchlist, DEFAULT_WATCHLIST,
      tabMapGet, seedEntriesForTab, insertOrIgnoreEntry, seedRows]
  · by_cases h : s.tabs = []
    · apply hskip
      unfold init_db
      rw [if_pos (by simp [h])]
      rw [seedWatchlist_tabs]
      intro hc
      have := seedTabs_tabs_length DEFAULT_TABS s
      rw [hc] at this
      simp [DEFAULT_TABS] at this
    · rw [hskip s h, hskip s h]

/-- Witness for C8 at the canonical empty store and at a seeded store. -/
theorem init_db_seeds_once_witness :
    (emptyStore.tabs = [] ∧ emptyStore.watchlist = [] ∧ 0 < emptyStore.nextTabId ∧
      (init_db emptyStore).tabs =
        [⟨1, "Main", 0⟩, ⟨2, "MAG7", 1⟩, ⟨3, "AA", 2⟩, ⟨4, "US Sectors", 3⟩] ∧
      (init_db emptyStore).watchlist.map (fun e => (e.tab_id, e.ticker, e.name, e.sort_order)) =
        seedRows 1) ∧
    (sampleOneTab.tabs ≠ [] ∧ init_db sampleOneTab = sampleOneTab) :=
  ⟨⟨rfl, rfl, by decide,
    (init_db_seeds_once emptyStore).1 rfl rfl (by decide)⟩,
   ⟨by decide, (init_db_seeds_once sampleOneTab).2.1 (by decide)⟩⟩

/-! ## C4 -/

theorem reorderEntry_nil (tabId k : Nat) (e : Entry) : reorderEntry tabId k [] e = e := rfl

theorem applyReorder_eq_map (tabId : Nat) :
    ∀ (ts : List String) (k : Nat) (es : List Entry),
      applyReorder tabId k ts es = es.map (reorderEntry tabId k ts) := by
  intro ts
  induction ts with
  | nil =>
      intro k es
      show es = es.map (reorderEntry tabId k [])
      rw [List.map_congr_left (fun e _ => reorderEntry_nil tabId k e), List.map_id']
  | cons t ts ih =>
      intro k es
      rw [applyReorder, ih, updateTicker, List.map_map]
      rfl

theorem reorderEntry_shape (tabId : Nat) :
    ∀ (ts : List String) (k : Nat) (e : Entry),
      ∃ o, reorderEntry tabId k ts e = { e with sort_order := o } := by
  intro ts
  induction ts with
  | nil => intro k e; exact ⟨e.sort_order, rfl⟩
  | cons t ts ih =>
      intro k e
      rw [reorderEntry]
      split
      · rcases ih (k + 1) { e with sort_order := (k : Int) } with ⟨o, ho⟩
        exact ⟨o, ho⟩
      · exact ih (k + 1) e

theorem reorderEntry_tab_id (tabId : Nat) (ts : List String) (k : Nat) (e : Entry) :
    (reorderEntry tabId k ts e).tab_id = e.tab_id := by
  rcases reorderEntry_shape tabId ts k e with ⟨o, ho⟩
  rw [ho]

theorem reorderEntry_ticker (tabId : Nat) (ts : List String) (k : Nat) (e : Entry) :
    (reorderEntry tabId k ts e).ticker = e.ticker := by
  rcases reorderEntry_shape tabId ts k e with ⟨o, ho⟩
  rw [ho]

theorem reorderEntry_id (tabId : Nat) (ts : List String) (k : Nat) (e : Entry) :
    (reorderEntry tabId k ts e).id = e.id := by
  rcases reorderEntry_shape tabId ts k e with ⟨o, ho⟩
  rw [ho]

theorem reorderEntry_of_other_tab (tabId : Nat) :
    ∀ (ts : List String) (k : Nat) (e : Entry),
      e.tab_id ≠ tabId → reorderEntry tabId k ts e = e := by
  intro ts
  induction ts with
  | nil => intro k e _; rfl
  | cons t ts ih =>
      intro k e he
      have hcond : (e.tab_id == tabId && e.ticker == normTicker t) = false := by
        simp [he]
      rw [reorderEntry, if_neg (by simp [hcond]), ih (k + 1) e he]

theorem reorderEntry_of_not_mem (tabId : Nat) :
    ∀ (ts : List String) (k : Nat) (e : Entry),
      e.ticker ∉ ts.map normTicker → reorderEntry tabId k ts e = e := by
  intro ts
  induction ts with
  | nil => intro k e _; rfl
  | cons t ts ih =>
      intro k e he
      rw [List.map_cons, List.mem_cons, not_or] at he
      have hcond : (e.tab_id == tabId && e.ticker == normTicker t) = false := by
        simp [he.1]
      rw [reorderEntry, if_neg (by simp [hcond]), ih (k + 1) e he.2]

theorem reorderEntry_indexOf (tabId : Nat) :
    ∀ (ts : List String) (k : Nat) (e : Entry),
      (ts.map normTicker).Nodup → e.tab_id = tabId → e.ticker ∈ ts.map normTicker →
      reorderEntry tabId k ts e =
        { e with sort_order := ((k + (ts.map normTicker).indexOf e.ticker : Nat) : Int) } := by
  intro ts
  induction ts with
  | nil => intro k e _ _ hmem; cases hmem
  | cons t ts ih =>
      intro k e hnd htab hmem
      rw [List.map_cons] at hnd hmem ⊢
      by_cases hx : e.ticker = normTicker t
      · have hcond : (e.tab_id == tabId && e.ticker == normTicker t) = true := by
          simp [htab, hx]
        rw [reorderEntry, if_pos hcond]
        have hnotmem : ({ e with sort_order := (k : Int) } : Entry).ticker ∉ ts.map normTicker := by
          show e.ticker ∉ ts.map normTicker
          rw [hx]
          exact (List.nodup_cons.mp hnd).1
        rw [reorderEntry_of_not_mem tabId ts (k + 1) _ hnotmem, hx, List.indexOf_cons_self]
        congr 1
      · have hcond : (e.tab_id == tabId && e.ticker == normTicker t) = false := by
          simp [hx]
        rw [reorderEntry, if_neg (by simp [hcond])]
        have hmem2 : e.ticker ∈ ts.map normTicker := by
          rcases List.mem_cons.mp hmem with h | h
          · exact absurd h hx
          · exact h
        rw [ih (k + 1) e (List.nodup_cons.mp hnd).2 htab hmem2,
          List.indexOf_cons_ne _ (fun h => hx h.symm)]
        congr 1
        omega

theorem filter_map_of_pres {p : Entry → Bool} {f : Entry → Entry}
    (hf : ∀ e, p (f e) = p e) :
    ∀ es : List Entry, (es.map f).filter p = (es.filter p).map f := by
  intro es
  induction es with
  | nil => rfl
  | cons e es ih =>
      rw [List.map_cons, List.filter_cons, List.filter_cons, hf e]
      rcases hp : p e with _ | _
      · simpa using ih
      · simpa using ih

theorem map_indexOf_pairs :
    ∀ (ts : List String), ts.Nodup → ∀ k : Nat,
      ts.map (fun t => (((k + ts.indexOf t : Nat) : Int), t)) =
        (List.enumFrom k ts).map (fun q => ((q.1 : Int), q.2)) := by
  intro ts
  induction ts with
  | nil => intro _ k; rfl
  | cons t ts ih =>
      intro hnd k
      rw [List.enumFrom, List.map_cons, List.map_cons, List.indexOf_cons_self]
      have htail : ts.map (fun u => (((k + (t :: ts).indexOf u : Nat) : Int), u)) =
          ts.map (fun u => ((((k + 1) + ts.indexOf u : Nat) : Int), u)) := by
        refine List.map_congr_left ?_
        intro u hu
        have hne : t ≠ u := fun h => (List.nodup_cons.mp hnd).1 (h ▸ hu)
        rw [List.indexOf_cons_ne _ hne]
        congr 2
        omega
      rw [htail, ih (List.nodup_cons.mp hnd).2 (k + 1)]
      congr 2

theorem mem_enumFrom_fst_ge :
    ∀ (ts : List String) (k : Nat) (q : Nat × String), q ∈ List.enumFrom k ts → k ≤ q.1 := by
  intro ts
  induction ts with
  | nil => intro k q hq; cases hq
  | cons t ts ih =>
      intro k q hq
      rw [List.enumFrom] at hq
      rcases List.mem_cons.mp hq with h | h
      · rw [h]
      · exact Nat.le_of_succ_le (ih (k + 1) q h)

theorem sorted_perm_enumFrom :
    ∀ (ts : List String) (k : Nat) (l : List Entry),
      l.Pairwise (fun a b => a.sort_order ≤ b.sort_order) →
      (l.map (fun e => (e.sort_order, e.ticker))).Perm
        ((List.enumFrom k ts).map (fun q => ((q.1 : Int), q.2))) →
      l.map Entry.ticker = ts := by
  intro ts
  induction ts with
  | nil =>
      intro k l _ hp
      have : l.map (fun e => (e.sort_order, e.ticker)) = [] := List.Perm.eq_nil hp
      rw [List.map_eq_nil_iff.mp this]
      rfl
  | cons t ts ih =>
      intro k l hsort hp
      rcases l with _ | ⟨e, l⟩
      · exact absurd hp.symm (by simp [List.enumFrom])
      rw [List.enumFrom, List.map_cons, List.map_cons] at hp
      dsimp only at hp
      -- the head entry must carry the pair (k, t)
      have hmemk : ((k : Int), t) ∈
          (e.sort_order, e.ticker) :: l.map (fun e2 => (e2.sort_order, e2.ticker)) :=
        hp.symm.subset (List.mem_cons_self _ _)
      have hin : (e.sort_order, e.ticker) ∈
          ((k : Int), t) :: (List.enumFrom (k + 1) ts).map (fun q => ((q.1 : Int), q.2)) :=
        hp.subset (List.mem_cons_self _ _)
      have hek : e.sort_order = (k : Int) := by
        have hge : (k : Int) ≤ e.sort_order := by
          rcases List.mem_cons.mp hin with h | h
          · rw [Prod.mk.injEq] at h
            omega
          · rcases List.mem_map.mp h with ⟨q, hq, hqe⟩
            have := mem_enumFrom_fst_ge ts (k + 1) q hq
            rw [Prod.mk.injEq] at hqe
            have h1 : (q.1 : Int) = e.sort_order := hqe.1
            omega
        rcases List.mem_cons.mp hmemk with h | h
        · rw [Prod.mk.injEq] at h
          omega
        · rcases List.mem_map.mp h with ⟨f, hf, hfe⟩
          rw [Prod.mk.injEq] at hfe
          have hle := (List.pairwise_cons.mp hsort).1 f hf
          omega
      have het : e.ticker = t := by
        rcases List.mem_cons.mp hin with h | h
        · rw [Prod.mk.injEq] at h
          exact h.2
        · rcases List.mem_map.mp h with ⟨q, hq, hqe⟩
          have hge := mem_enumFrom_fst_ge ts (k + 1) q hq
          rw [Prod.mk.injEq] at hqe
          have h1 : (q.1 : Int) = e.sort_order := hqe.1
          omega
      have hptail : (l.map (fun e2 => (e2.sort_order, e2.ticker))).Perm
          ((List.enumFrom (k + 1) ts).map (fun q => ((q.1 : Int), q.2))) := by
        have hhead : ((e.sort_order, e.ticker) : Int × String) = ((k : Int), t) := by
          rw [hek, het]
        rw [hhead] at hp
        exact hp.cons_inv
      rw [List.map_cons, het, ih (k + 1) l (List.pairwise_cons.mp hsort).2 hptail]

/-- C4: `reorder_watchlist` always returns true, touches only rows of the
targeted tab, leaves rows whose ticker is not listed unchanged (listed
tickers not present in the tab match no row, so they are silently ignored),
sets each listed ticker's sort_order to its index in the sequence, and —
when the sequence is a permutation of the tab's (normalized, per-tab
unique) tickers — makes `get_watchlist` return the entries in exactly the
sequence's order. -/
theorem reorder_watchlist_orders (s : Store) (T : Nat) (ts : List String) :
    (reorder_watchlist s T ts).2 = true ∧
    ((reorder_watchlist s T ts).1.watchlist.filter (fun e => !(e.tab_id == T)) =
      s.watchlist.filter fun e => !(e.tab_id == T)) ∧
    (∀ e ∈ s.watchlist, e.ticker ∉ ts.map normTicker →
      e ∈ (reorder_watchlist s T ts).1.watchlist) ∧
    ((ts.map normTicker).Nodup →
      ∀ e ∈ s.watchlist, e.tab_id = T → e.ticker ∈ ts.map normTicker →
        ∃ e2 ∈ (reorder_watchlist s T ts).1.watchlist, e2.id = e.id ∧ e2.ticker = e.ticker ∧
          e2.sort_order = (((ts.map normTicker).indexOf e.ticker : Nat) : Int)) ∧
    ((∀ e ∈ s.watchlist, e.tab_id = T → normTicker e.ticker = e.ticker) →
      ((s.watchlist.filter fun e => e.tab_id == T).map Entry.ticker).Nodup →
      ts.Perm ((s.watchlist.filter fun e => e.tab_id == T).map Entry.ticker) →
      (get_watchlist (reorder_watchlist s T ts).1 T).map Entry.ticker = ts) := by
  have hwl : (reorder_watchlist s T ts).1.watchlist =
      s.watchlist.map (reorderEntry T 0 ts) := by
    show applyReorder T 0 ts s.watchlist = _
    exact applyReorder_eq_map T ts 0 s.watchlist
  refine ⟨rfl, ?_, ?_, ?_, ?_⟩
  · rw [hwl, filter_map_of_pres (fun e => by rw [reorderEntry_tab_id])]
    have hid : ∀ e ∈ s.watchlist.filter (fun e => !(e.tab_id == T)),
        reorderEntry T 0 ts e = e := by
      intro e he
      apply reorderEntry_of_other_tab
      simpa using (List.mem_filter.mp he).2
    rw [List.map_congr_left hid, List.map_id']
  · intro e he hnm
    rw [hwl]
    exact reorderEntry_of_not_mem T ts 0 e hnm ▸ List.mem_map_of_mem _ he
  · intro hnd e he htab hmem
    refine ⟨reorderEntry T 0 ts e, ?_, reorderEntry_id T ts 0 e,
      reorderEntry_ticker T ts 0 e, ?_⟩
    · rw [hwl]
      exact List.mem_map_of_mem _ he
    · rw [reorderEntry_indexOf T ts 0 e hnd htab hmem]
      show (((0 + (ts.map normTicker).indexOf e.ticker : Nat) : Int)) =
        (((ts.map normTicker).indexOf e.ticker : Nat) : Int)
      congr 1
      omega
  · intro hnormed hnd hperm
    have hfix : ∀ u ∈ ts, normTicker u = u := by
      intro u hu
      rcases List.mem_map.mp (hperm.subset hu) with ⟨e, he, rfl⟩
      have hm := List.mem_filter.mp he
      exact hnormed e hm.1 (by simpa using hm.2)
    have hts : ts.map normTicker = ts := by
      rw [List.map_congr_left hfix, List.map_id']
    have htsnd : ts.Nodup := hperm.nodup_iff.mpr hnd
    have hfilter : (reorder_watchlist s T ts).1.watchlist.filter (fun e => e.tab_id == T) =
        (s.watchlist.filter fun e => e.tab_id == T).map (reorderEntry T 0 ts) := by
      rw [hwl]
      exact filter_map_of_pres (fun e => by rw [reorderEntry_tab_id]) s.watchlist
    have hkeys : (((s.watchlist.filter fun e => e.tab_id == T).map
          (reorderEntry T 0 ts)).map (fun e => (e.sort_order, e.ticker))).Perm
        ((List.enumFrom 0 ts).map fun q => ((q.1 : Int), q.2)) := by
      rw [List.map_map]
      have hcong : ∀ e ∈ (s.watchlist.filter fun e2 => e2.tab_id == T),
          ((fun e2 => (e2.sort_order, e2.ticker)) ∘ reorderEntry T 0 ts) e =
            ((fun u => (((0 + ts.indexOf u : Nat) : Int), u)) ∘ Entry.ticker) e := by
        intro e he
        have hm := List.mem_filter.mp he
        have htab : e.tab_id = T := by simpa using hm.2
        have hmem : e.ticker ∈ ts.map normTicker := by
          rw [hts]
          exact hperm.symm.subset (List.mem_map_of_mem Entry.ticker he)
        have hnd2 : (ts.map normTicker).Nodup := by rw [hts]; exact htsnd
        show (fun e2 => (e2.sort_order, e2.ticker)) (reorderEntry T 0 ts e) = _
        rw [reorderEntry_indexOf T ts 0 e hnd2 htab hmem]
        show ((((0 + (ts.map normTicker).indexOf e.ticker : Nat)) : Int), e.ticker) = _
        rw [hts]
        rfl
      rw [List.map_congr_left hcong, ← List.map_map]
      refine (List.Perm.map _ hperm.symm).trans ?_
      rw [map_indexOf_pairs ts htsnd 0]
    have hsorted : (List.insertionSort entryLE ((s.watchlist.filter
          fun e => e.tab_id == T).map (reorderEntry T 0 ts))).Pairwise
        (fun a b => a.sort_order ≤ b.sort_order) := by
      refine List.Pairwise.imp ?_ (List.sorted_insertionSort entryLE _)
      intro a b h
      have h2 : a.sort_order < b.sort_order ∨
          (a.sort_order = b.sort_order ∧ a.added_at ≤ b.added_at) := h
      rcases h2 with h2 | ⟨h2, _⟩
      · exact le_of_lt h2
      · exact le_of_eq h2
    show (get_watchlist (reorder_watchlist s T ts).1 T).map Entry.ticker = ts
    rw [get_watchlist, hfilter]
    exact sorted_perm_enumFrom ts 0 _ hsorted
      (((List.perm_insertionSort entryLE _).map _).trans hkeys)

/-- Witness for C4 at a concrete store: reordering tab 1's three tickers by
the permutation ["MSFT", "GOOG", "AAPL"]. -/
theorem reorder_watchlist_orders_witness :
    ((∀ e ∈ reorderStore.watchlist, e.tab_id = 1 → normTicker e.ticker = e.ticker) ∧
      ((reorderStore.watchlist.filter fun e => e.tab_id == 1).map Entry.ticker).Nodup ∧
      (["MSFT", "GOOG", "AAPL"] : List String).Perm
        ((reorderStore.watchlist.filter fun e => e.tab_id == 1).map Entry.ticker)) ∧
    (get_watchlist (reorder_watchlist reorderStore 1 ["MSFT", "GOOG", "AAPL"]).1 1).map
        Entry.ticker = ["MSFT", "GOOG", "AAPL"] :=
  ⟨⟨by decide, by decide, by decide⟩,
   (reorder_watchlist_orders reorderStore 1 ["MSFT", "GOOG", "AAPL"]).2.2.2.2
     (by decide) (by decide) (by decide)⟩
